import Mathlib

/-!
Shallow embedding of the NPM dataplane cache layer of
azure-container-networking: the IP-set manager (hash-set and list-set
caches with pod-ownership tracking), the policy manager, and the
DataPlane orchestrator.  Go maps become association lists, in-place
mutation through a cached pointer becomes re-insertion of the updated
value under the same key, and each method returns the pair
(error, state after the call).  The embedding is sequential, one
top-level operation at a time: a mutex an operation takes at most once
adds nothing under that scheduling and is elided, but a mutex an
operation re-locks while already holding it (`sync.Mutex` is not
reentrant) blocks forever and is modelled explicitly as a `deadlock`
result.
-/

set_option autoImplicit false

namespace AzureACN

/-! ## Association-list model of Go maps -/

/-- Lookup of a key in an association list, the model of a Go map read. -/
def lookupA {V : Type} (key : String) : List (String × V) → Option V
  | [] => none
  | (k, v) :: rest => if k = key then some v else lookupA key rest

/-- Insert or replace a binding, the model of a Go map assignment. -/
def insertA {V : Type} (key : String) (val : V) : List (String × V) → List (String × V)
  | [] => [(key, val)]
  | (k, v) :: rest => if k = key then (key, val) :: rest else (k, v) :: insertA key val rest

/-- Remove a binding, the model of Go `delete(m, key)`. -/
def eraseA {V : Type} (key : String) : List (String × V) → List (String × V)
  | [] => []
  | (k, v) :: rest => if k = key then eraseA key rest else (k, v) :: eraseA key rest

/-! ## Set types, kinds and errors -/

/-- Purpose tag of a set, mirroring the `api.SetType` protobuf enum used by
`NewIPSet(setName, api.SetType_Unknown)` and the test constants
(`NameSpace`, `KeyLabelOfNameSpace`, `KeyLabelOfPod`, `KeyValueLabelOfPod`). -/
inductive SetType where
  | Unknown
  | NameSpace
  | NamedPorts
  | KeyLabelOfPod
  | KeyValueLabelOfPod
  | CIDRBlocks
  | KeyLabelOfNameSpace
  | KeyValueLabelOfNameSpace
  | NestedLabelOfPod
deriving DecidableEq

/-- Structural kind of a set: the source dispatches on `ListSet` and `HashSet`
and keeps a default branch for an unknown kind. -/
inductive SetKind where
  | ListSet
  | HashSet
  | UnknownKind
deriving DecidableEq

/-- Modelled from the spec: the function `getSetKind` (the repository's
`ipset.go`) is not under `src/`; only its callers are.  The spec says the
kind is implied by the purpose tag — namespace/pod-label tags are hash sets,
namespace-label and nested tags are list sets — and that `AddToSet`
auto-creates an entirely absent set *as a HashSet* (the auto-create path
constructs it with type `Unknown`), so `Unknown` maps to `HashSet`. -/
def getSetKindOfType : SetType → SetKind
  | .KeyLabelOfNameSpace => .ListSet
  | .KeyValueLabelOfNameSpace => .ListSet
  | .NestedLabelOfPod => .ListSet
  | _ => .HashSet

/-- Operation tag carried by an NPM error, mirroring the constants of the
`npm/util/errors` package used in the source (`errors.CreateIPSet`,
`errors.AppendIPSet`, `errors.DeleteIPSet`). -/
inductive ErrOp where
  | CreateIPSet
  | AppendIPSet
  | DeleteIPSet
deriving DecidableEq

/-- Go `error` values as they appear in this code: typed NPM errors built by
`errors.Errorf`, opaque backend errors, and `fmt.Errorf("...: %w", err)`
wrappings. -/
inductive GoError where
  | npmError (op : ErrOp) (retriable : Bool) (msg : String)
  | backendError (msg : String)
  | wrapped (wrapMsg : String) (inner : GoError)
deriving DecidableEq

/-- Mirror of `errors.Errorf(op, isRetriable, msg)`. -/
def Errorf (op : ErrOp) (retriable : Bool) (msg : String) : GoError :=
  .npmError op retriable msg

deriving instance DecidableEq for Except

/-- Result of running one method of this code: either it returns a value, or
it blocks forever re-locking a mutex it already holds.  Only `AddToSet`'s
auto-create path can deadlock; every other operation takes each mutex at
most once. -/
inductive GoResult (A : Type) where
  | ok (val : A)
  | deadlock
deriving DecidableEq

/-! ## IPv4 check

The source guards `AddToSet` with `net.ParseIP(ip).To4() == nil`.  The
standard-library parser is external; we model its dotted-quad acceptance:
four dot-separated runs of digits, each with value at most 255. -/

/-- Split a character list at every dot, keeping empty segments. -/
def splitDots : List Char → List (List Char)
  | [] => [[]]
  | c :: rest =>
    if c = '.' then [] :: splitDots rest
    else
      match splitDots rest with
      | [] => [[c]]
      | p :: ps => (c :: p) :: ps

/-- Numeric value of a digit run. -/
def octetVal (cs : List Char) : Nat :=
  cs.foldl (fun n c => n * 10 + (c.toNat - '0'.toNat)) 0

/-- A valid dotted-quad component: nonempty, all digits, value ≤ 255. -/
def isOctet (cs : List Char) : Bool :=
  ¬ cs.isEmpty ∧ cs.all Char.isDigit ∧ octetVal cs ≤ 255

/-- Model of `net.ParseIP(ip).To4() != nil` on dotted-quad input. -/
def isIPv4 (ip : String) : Bool :=
  let parts := splitDots ip.toList
  parts.length = 4 ∧ parts.all isOctet

namespace ipsets

/-- Mirror of `api.IPSet`: name, purpose type, the `IpPodKey` map from member
IP to owning pod key (hash sets), and the member map of a list set.  The Go
member map `IPSet map[string]*api.IPSet` stores pointers to the member sets;
the only reads the manager performs on it are key-existence checks, so it is
modelled by its key set. -/
structure IPSet where
  Name : String
  Typ : SetType
  IpPodKey : List (String × String)
  Members : List String
deriving DecidableEq

/-- Mirror of `getSetKind(set)`, dispatching on the set's `Type` field
(spelled `Typ` here because `Type` is a Lean keyword). -/
def getSetKind (set : IPSet) : SetKind :=
  getSetKindOfType set.Typ

/-- Modelled from the spec: `NewIPSet` (the repository's `ipset.go`) is not
under `src/`; it allocates a fresh set of the given name and type with empty
member data. -/
def NewIPSet (name : String) (setType : SetType) : IPSet :=
  { Name := name, Typ := setType, IpPodKey := [], Members := [] }

/-- Mirror of `IPSetManager`: the list-set cache, the hash-set cache and the
`os` field (`NewIPSetManager` fixes it to `"linux"`). -/
structure IPSetManager where
  listMap : List (String × IPSet)
  setMap : List (String × IPSet)
  os : String
deriving DecidableEq

/-- Mirror of `NewIPSetManager()`. -/
def NewIPSetManager : IPSetManager :=
  { listMap := [], setMap := [], os := "linux" }

/-- Mirror of `IPSetManager.CreateIPSet`: `getSetCache` picks the cache for
the set's kind (erroring on an unknown kind), an existing name is a no-op,
otherwise the set is inserted. -/
def CreateIPSet (mgr : IPSetManager) (set : IPSet) : Option GoError × IPSetManager :=
  match getSetKind set with
  | .ListSet =>
    if (lookupA set.Name mgr.listMap).isSome then (none, mgr)
    else (none, { mgr with listMap := insertA set.Name set mgr.listMap })
  | .HashSet =>
    if (lookupA set.Name mgr.setMap).isSome then (none, mgr)
    else (none, { mgr with setMap := insertA set.Name set mgr.setMap })
  | .UnknownKind => (some (Errorf .CreateIPSet false "unknown Set kind"), mgr)

/-- Body of `AddToSet` from the kind check on: rejects a non-hash set, then
reads `set.IpPodKey[ip]`; a different cached owner is overwritten, the same
owner is a no-op, and a fresh IP is recorded.  The in-place Go mutation
`set.IpPodKey[ip] = podKey` becomes re-insertion of the updated set under its
name in the hash-set cache. -/
def addToSetBody (mgr : IPSetManager) (set : IPSet) (setName ip podKey : String) :
    Option GoError × IPSetManager :=
  if getSetKind set ≠ .HashSet then
    (some (Errorf .AppendIPSet false ("ipset " ++ setName ++ " is not a hash set")), mgr)
  else
    match lookupA ip set.IpPodKey with
    | some cachedPodKey =>
      if cachedPodKey ≠ podKey then
        (none, { mgr with
                  setMap := insertA setName
                    { set with IpPodKey := insertA ip podKey set.IpPodKey } mgr.setMap })
      else (none, mgr)
    | none =>
      (none, { mgr with
                setMap := insertA setName
                  { set with IpPodKey := insertA ip podKey set.IpPodKey } mgr.setMap })

/-- Mirror of the nested `mgr.CreateIPSet(set)` call that `AddToSet` makes
while its deferred unlock still holds the hash-set cache's mutex:
`getSetCache` picks the cache matching the set's kind and then locks it.
The list-set mutex is free, so that branch proceeds exactly as `CreateIPSet`;
the hash-set mutex is already held by the caller and `sync.Mutex` is not
reentrant, so that branch never returns; an unknown kind errors before any
lock is taken. -/
def createIPSetUnderSetLock (mgr : IPSetManager) (set : IPSet) :
    GoResult (Option GoError × IPSetManager) :=
  match getSetKind set with
  | .ListSet =>
    .ok (if (lookupA set.Name mgr.listMap).isSome then (none, mgr)
         else (none, { mgr with listMap := insertA set.Name set mgr.listMap }))
  | .HashSet => .deadlock
  | .UnknownKind => .ok (some (Errorf .CreateIPSet false "unknown Set kind"), mgr)

/-- Mirror of `IPSetManager.AddToSet`: rejects a non-IPv4 address; an absent
name is auto-created via `NewIPSet(setName, SetType_Unknown)` and a nested
`CreateIPSet` call made while the hash-set mutex is still held (see
`createIPSetUnderSetLock`: for a hash-kind set this re-locks the held mutex
and self-deadlocks); a cached set runs the ownership logic of
`addToSetBody`. -/
def AddToSet (mgr : IPSetManager) (setName ip podKey : String) :
    GoResult (Option GoError × IPSetManager) :=
  if ¬ isIPv4 ip then
    .ok (some (Errorf .AppendIPSet false "IPV6 not supported"), mgr)
  else
    match lookupA setName mgr.setMap with
    | some set => .ok (addToSetBody mgr set setName ip podKey)
    | none =>
      let set := NewIPSet setName .Unknown
      match createIPSetUnderSetLock mgr set with
      | .deadlock => .deadlock
      | .ok (some e, mgr1) => .ok (some e, mgr1)
      | .ok (none, mgr1) => .ok (addToSetBody mgr1 set setName ip podKey)

/-- Mirror of `IPSetManager.DeleteFromSet`: absent set and non-hash set are
errors; an owner mismatch (the Go read `set.IpPodKey[ip]` defaults to `""`)
is treated as a stale update and ignored; otherwise the IP is deleted. -/
def DeleteFromSet (mgr : IPSetManager) (setName ip podKey : String) :
    Option GoError × IPSetManager :=
  match lookupA setName mgr.setMap with
  | none =>
    (some (Errorf .DeleteIPSet false ("ipset " ++ setName ++ " does not exist")), mgr)
  | some set =>
    if getSetKind set ≠ .HashSet then
      (some (Errorf .DeleteIPSet false ("ipset " ++ setName ++ " is not a hash set")), mgr)
    else
      let cachedPodKey := (lookupA ip set.IpPodKey).getD ""
      if cachedPodKey ≠ podKey then (none, mgr)
      else
        (none, { mgr with
                  setMap := insertA setName
                    { set with IpPodKey := eraseA ip set.IpPodKey } mgr.setMap })

/-- Mirror of `IPSetManager.AddToList`: rejects a list naming itself, then
validates the member set (exists; hash kind unless on windows) and the list
(exists; list kind); an already-present member leaves the key set unchanged
(the Go code either keeps or refreshes the stored pointer), a fresh member
name is added to the list's member map. -/
def AddToList (mgr : IPSetManager) (listName setName : String) :
    Option GoError × IPSetManager :=
  if listName = setName then
    (some (Errorf .AppendIPSet false ("list " ++ listName ++ " cannot be added to itself")), mgr)
  else
    match lookupA setName mgr.setMap with
    | none =>
      (some (Errorf .AppendIPSet false ("member ipset " ++ setName ++ " does not exist")), mgr)
    | some set =>
      if getSetKind set ≠ .HashSet ∧ mgr.os ≠ "windows" then
        (some (Errorf .DeleteIPSet false
          ("member ipset " ++ setName ++ " is not a Set type and nestetd ipsets are not supported")), mgr)
      else
        match lookupA listName mgr.listMap with
        | none =>
          (some (Errorf .AppendIPSet false ("ipset " ++ listName ++ " does not exist")), mgr)
        | some list =>
          if getSetKind list ≠ .ListSet then
            (some (Errorf .AppendIPSet false ("ipset " ++ listName ++ " is not a list set")), mgr)
          else if setName ∈ list.Members then (none, mgr)
          else
            (none, { mgr with
                      listMap := insertA listName
                        { list with Members := setName :: list.Members } mgr.listMap })

/-- Mirror of `IPSetManager.DeleteFromList`: the same validation ladder as the
source (including its duplicated hash-set check), a membership lookup, and —
as in the source, where the removal itself is absent — no mutation on any
path. -/
def DeleteFromList (mgr : IPSetManager) (listName setName : String) :
    Option GoError × IPSetManager :=
  match lookupA setName mgr.setMap with
  | none =>
    (some (Errorf .DeleteIPSet false ("ipset " ++ setName ++ " does not exist")), mgr)
  | some set =>
    if getSetKind set ≠ .HashSet then
      (some (Errorf .DeleteIPSet false ("ipset " ++ setName ++ " is not a hash set")), mgr)
    else if getSetKind set ≠ .HashSet ∧ mgr.os ≠ "windows" then
      (some (Errorf .DeleteIPSet false
        ("member ipset " ++ setName ++ " is not a Set type and nestetd ipsets are not supported")), mgr)
    else
      match lookupA listName mgr.listMap with
      | none =>
        (some (Errorf .DeleteIPSet false ("ipset " ++ listName ++ " does not exist")), mgr)
      | some list =>
        if getSetKind list ≠ .ListSet then
          (some (Errorf .DeleteIPSet false ("ipset " ++ listName ++ " is not a list set")), mgr)
        else if setName ∉ list.Members then (none, mgr)
        else (none, mgr)

end ipsets

/-! ## The reworked ipsets manager consumed by the DataPlane orchestrator

The DataPlane files and the ipsets tests call a newer `ipsets` API —
`NewIPSetManager(network)`, `CreateIPSet(name, type)`,
`AddToSet(setNames, ip, podKey)`, `AddToList(listName, setNames)`,
`AddReference`/`DeleteReference`, `DeleteIPSet`,
`GetIPsFromSelectorIPSets` — whose implementation file is not under
`src/`; only its callers and tests are.  Everything in this namespace is
modelled from the spec (§3 data model, §4.1 operations). -/

namespace ipsetsv2

/-- Reference kinds recorded on a set, mirroring `ipsets.SelectorType` and
`ipsets.NetPolType` used by the DataPlane. -/
inductive ReferenceType where
  | SelectorType
  | NetPolType
deriving DecidableEq

/-- A named member of a list set as it appears in a policy's set list; the
orchestrator only ever reads its `Name`. -/
structure MemberRef where
  Name : String
deriving DecidableEq

/-- Modelled from the spec: the v2 `IPSet` — name, purpose type (kind implied
by it), hash-set member data `IpPodKey` (IP → owning pod key), list-set
member data `MemberIPSets` (member-set names, keys unique), and the
reference presence map from (policy name, reference kind). -/
structure IPSet where
  Name : String
  Typ : SetType
  IpPodKey : List (String × String)
  MemberIPSets : List MemberRef
  References : List (String × ReferenceType)
deriving DecidableEq

/-- Kind of a v2 set, implied by its type (`set.Kind` in the DataPlane). -/
def IPSet.Kind (s : IPSet) : SetKind :=
  getSetKindOfType s.Typ

/-- A fresh, empty v2 set. -/
def newIPSet (name : String) (setType : SetType) : IPSet :=
  { Name := name, Typ := setType, IpPodKey := [], MemberIPSets := [], References := [] }

/-- Modelled from the spec: the v2 manager's two keyed caches. -/
structure IPSetManager where
  setMap : List (String × IPSet)
  listMap : List (String × IPSet)
deriving DecidableEq

/-- Modelled from the spec: `NewIPSetManager(network)` starts with empty
caches (the network name only scopes the eventual flush). -/
def NewIPSetManager : IPSetManager :=
  { setMap := [], listMap := [] }

/-- Modelled from the spec: `CreateIPSet(name, type)` is idempotent — if the
name is absent from the cache matching the kind implied by `type`, a fresh
set is inserted; if present, no-op.  Its callers in the DataPlane discard
any result, so it returns only the state. -/
def CreateIPSet (mgr : IPSetManager) (name : String) (setType : SetType) : IPSetManager :=
  match getSetKindOfType setType with
  | .ListSet =>
    if (lookupA name mgr.listMap).isSome then mgr
    else { mgr with listMap := insertA name (newIPSet name setType) mgr.listMap }
  | .HashSet =>
    if (lookupA name mgr.setMap).isSome then mgr
    else { mgr with setMap := insertA name (newIPSet name setType) mgr.setMap }
  | .UnknownKind => mgr

/-- Modelled from the spec: `AddToSet` for one named set — auto-created as a
HashSet if entirely absent, `WrongKind` if the name denotes a list set, then
last-writer-wins ownership update exactly as in the v1 manager. -/
def addToSetOne (mgr : IPSetManager) (setName ip podKey : String) :
    Option GoError × IPSetManager :=
  match lookupA setName mgr.setMap with
  | some set =>
    if set.Kind ≠ .HashSet then
      (some (Errorf .AppendIPSet false ("ipset " ++ setName ++ " is not a hash set")), mgr)
    else
      match lookupA ip set.IpPodKey with
      | some cachedPodKey =>
        if cachedPodKey ≠ podKey then
          (none, { mgr with
                    setMap := insertA setName
                      { set with IpPodKey := insertA ip podKey set.IpPodKey } mgr.setMap })
        else (none, mgr)
      | none =>
        (none, { mgr with
                  setMap := insertA setName
                    { set with IpPodKey := insertA ip podKey set.IpPodKey } mgr.setMap })
  | none =>
    match lookupA setName mgr.listMap with
    | some _ =>
      (some (Errorf .AppendIPSet false ("ipset " ++ setName ++ " is not a hash set")), mgr)
    | none =>
      let set := newIPSet setName .Unknown
      (none, { mgr with
                setMap := insertA setName
                  { set with IpPodKey := [(ip, podKey)] } mgr.setMap })

/-- Sequential, fail-fast application of `addToSetOne` over the named sets
(the spec notes multi-set operations are not transactional). -/
def addToSetLoop (ip podKey : String) (mgr : IPSetManager) :
    List String → Option GoError × IPSetManager
  | [] => (none, mgr)
  | n :: rest =>
    match addToSetOne mgr n ip podKey with
    | (some e, mgr1) => (some e, mgr1)
    | (none, mgr1) => addToSetLoop ip podKey mgr1 rest

/-- Modelled from the spec: `AddToSet(setNames, ip, podKey)` rejects a
non-IPv4 address up front, then updates every named set in order. -/
def AddToSet (mgr : IPSetManager) (setNames : List String) (ip podKey : String) :
    Option GoError × IPSetManager :=
  if ¬ isIPv4 ip then
    (some (Errorf .AppendIPSet false "IPV6 not supported"), mgr)
  else addToSetLoop ip podKey mgr setNames

/-- Insert a reference pair if not already present (reference registration is
idempotent: the map records presence). -/
def insertRef (pair : String × ReferenceType) (refs : List (String × ReferenceType)) :
    List (String × ReferenceType) :=
  if pair ∈ refs then refs else pair :: refs

/-- Modelled from the spec: `AddReference(setName, netpolName, refType)`
records reference presence on the named set (in either cache); an entirely
absent set is `NotFound`. -/
def AddReference (mgr : IPSetManager) (setName netpolName : String)
    (refType : ReferenceType) : Option GoError × IPSetManager :=
  match lookupA setName mgr.setMap with
  | some set =>
    (none, { mgr with
              setMap := insertA setName
                { set with References := insertRef (netpolName, refType) set.References }
                mgr.setMap })
  | none =>
    match lookupA setName mgr.listMap with
    | some set =>
      (none, { mgr with
                listMap := insertA setName
                  { set with References := insertRef (netpolName, refType) set.References }
                  mgr.listMap })
    | none =>
      (some (Errorf .AppendIPSet false ("ipset " ++ setName ++ " does not exist")), mgr)

/-- Modelled from the spec: `DeleteReference` removes the reference pair from
the named set; an entirely absent set is `NotFound`. -/
def DeleteReference (mgr : IPSetManager) (setName netpolName : String)
    (refType : ReferenceType) : Option GoError × IPSetManager :=
  match lookupA setName mgr.setMap with
  | some set =>
    (none, { mgr with
              setMap := insertA setName
                { set with References := set.References.filter (· ≠ (netpolName, refType)) }
                mgr.setMap })
  | none =>
    match lookupA setName mgr.listMap with
    | some set =>
      (none, { mgr with
                listMap := insertA setName
                  { set with References := set.References.filter (· ≠ (netpolName, refType)) }
                  mgr.listMap })
    | none =>
      (some (Errorf .DeleteIPSet false ("ipset " ++ setName ++ " does not exist")), mgr)

/-- Modelled from the spec: `AddToList` for one member — self-reference is
rejected, the member must exist as a hash set (nested lists are not
supported on linux), the list must exist as a list set, and adding an
already-present member is a no-op. -/
def addToListOne (mgr : IPSetManager) (listName setName : String) :
    Option GoError × IPSetManager :=
  if listName = setName then
    (some (Errorf .AppendIPSet false ("list " ++ listName ++ " cannot be added to itself")), mgr)
  else
    match lookupA setName mgr.setMap with
    | none =>
      (some (Errorf .AppendIPSet false ("member ipset " ++ setName ++ " does not exist")), mgr)
    | some _ =>
      match lookupA listName mgr.listMap with
      | none =>
        (some (Errorf .AppendIPSet false ("ipset " ++ listName ++ " does not exist")), mgr)
      | some list =>
        if list.Kind ≠ .ListSet then
          (some (Errorf .AppendIPSet false ("ipset " ++ listName ++ " is not a list set")), mgr)
        else if setName ∈ list.MemberIPSets.map MemberRef.Name then (none, mgr)
        else
          (none, { mgr with
                    listMap := insertA listName
                      { list with MemberIPSets := ⟨setName⟩ :: list.MemberIPSets }
                      mgr.listMap })

/-- Sequential, fail-fast application of `addToListOne`. -/
def addToListLoop (listName : String) (mgr : IPSetManager) :
    List String → Option GoError × IPSetManager
  | [] => (none, mgr)
  | n :: rest =>
    match addToListOne mgr listName n with
    | (some e, mgr1) => (some e, mgr1)
    | (none, mgr1) => addToListLoop listName mgr1 rest

/-- Modelled from the spec: `AddToList(listName, setNames)`. -/
def AddToList (mgr : IPSetManager) (listName : String) (setNames : List String) :
    Option GoError × IPSetManager :=
  addToListLoop listName mgr setNames

/-- Modelled from the spec: `RemoveFromList` for one member — symmetric
validation to `addToListOne`; removing an absent membership is a no-op. -/
def removeFromListOne (mgr : IPSetManager) (listName setName : String) :
    Option GoError × IPSetManager :=
  match lookupA setName mgr.setMap with
  | none =>
    (some (Errorf .DeleteIPSet false ("member ipset " ++ setName ++ " does not exist")), mgr)
  | some _ =>
    match lookupA listName mgr.listMap with
    | none =>
      (some (Errorf .DeleteIPSet false ("ipset " ++ listName ++ " does not exist")), mgr)
    | some list =>
      if list.Kind ≠ .ListSet then
        (some (Errorf .DeleteIPSet false ("ipset " ++ listName ++ " is not a list set")), mgr)
      else
        (none, { mgr with
                  listMap := insertA listName
                    { list with
                      MemberIPSets := list.MemberIPSets.filter (fun m => m.Name ≠ setName) }
                    mgr.listMap })

/-- Sequential, fail-fast application of `removeFromListOne`. -/
def removeFromListLoop (listName : String) (mgr : IPSetManager) :
    List String → Option GoError × IPSetManager
  | [] => (none, mgr)
  | n :: rest =>
    match removeFromListOne mgr listName n with
    | (some e, mgr1) => (some e, mgr1)
    | (none, mgr1) => removeFromListLoop listName mgr1 rest

/-- Modelled from the spec: `RemoveFromList(listName, setNames)`. -/
def RemoveFromList (mgr : IPSetManager) (listName : String) (setNames : List String) :
    Option GoError × IPSetManager :=
  removeFromListLoop listName mgr setNames

/-- Modelled from the spec: `DeleteIPSet(name)` is unconditional cache
removal (reference gating lives in the orchestrator). -/
def DeleteIPSet (mgr : IPSetManager) (name : String) : IPSetManager :=
  { mgr with setMap := eraseA name mgr.setMap, listMap := eraseA name mgr.listMap }

/-- IP membership of a hash set: the key set of its `IpPodKey` map. -/
def memberIPs (s : IPSet) : Finset String :=
  (s.IpPodKey.map Prod.fst).toFinset

/-- Resolve every selector name to its cached hash set, failing with
`NotFound` for an absent name and `WrongKind` for a non-hash set. -/
def resolveHashSets (mgr : IPSetManager) : List String → Except GoError (List IPSet)
  | [] => .ok []
  | n :: rest =>
    match lookupA n mgr.setMap with
    | none => .error (Errorf .DeleteIPSet false ("ipset " ++ n ++ " does not exist"))
    | some set =>
      if set.Kind ≠ .HashSet then
        .error (Errorf .DeleteIPSet false ("ipset " ++ n ++ " is not a hash set"))
      else
        match resolveHashSets mgr rest with
        | .error e => .error e
        | .ok sets => .ok (set :: sets)

/-- Intersection of a list of finite sets (empty for the empty list). -/
def intersectAll : List (Finset String) → Finset String
  | [] => ∅
  | s :: rest => rest.foldl (fun acc t => acc ∩ t) s

/-- Modelled from the spec: `GetIPsFromSelectorIPSets(setNames)` computes the
intersection of IP membership across the named hash sets (AND semantics for
multi-label pod selectors). -/
def GetIPsFromSelectorIPSets (mgr : IPSetManager) (setNames : List String) :
    Except GoError (Finset String) :=
  match resolveHashSets mgr setNames with
  | .error e => .error e
  | .ok sets => .ok (intersectAll (sets.map memberIPs))

/-- A name resolves to a cached hash set. -/
def validSelector (mgr : IPSetManager) (n : String) : Prop :=
  ∃ s, lookupA n mgr.setMap = some s ∧ s.Kind = .HashSet

/-- The manager state of `TestGetIPsFromSelectorIPSets`: four selector sets,
`10.0.0.1` and `10.0.0.2` added to all four, `10.0.0.3` added to all but
`setpod1`. -/
def scenarioMgr : IPSetManager :=
  let m1 := CreateIPSet NewIPSetManager "setNs1" .NameSpace
  let m2 := CreateIPSet m1 "setpod1" .KeyLabelOfPod
  let m3 := CreateIPSet m2 "setpod2" .KeyLabelOfPod
  let m4 := CreateIPSet m3 "setpod3" .KeyValueLabelOfPod
  let m5 := (AddToSet m4 ["setNs1", "setpod1", "setpod2", "setpod3"] "10.0.0.1" "test").2
  let m6 := (AddToSet m5 ["setNs1", "setpod1", "setpod2", "setpod3"] "10.0.0.2" "test1").2
  (AddToSet m6 ["setNs1", "setpod2", "setpod3"] "10.0.0.3" "test3").2

end ipsetsv2

namespace policies

/-- Mirror of `NPMNetworkPolicy`: name, selector set list, rule set list, and
the resolved pod→endpoint mapping stored by the orchestrator. -/
structure NPMNetworkPolicy where
  Name : String
  PodSelectorIPSets : List ipsetsv2.IPSet
  RuleIPSets : List ipsetsv2.IPSet
  PodEndpoints : List (String × String)
deriving DecidableEq

/-- The external policy-programming backend behind `PolicyManager`: the
lowercase `addPolicy`/`removePolicy`/`updatePolicy` dataplane calls are
outside this core (spec §6), so each is an arbitrary function returning an
optional error. -/
structure PolicyBackend where
  addPolicy : NPMNetworkPolicy → Option GoError
  removePolicy : String → Option GoError
  updatePolicy : NPMNetworkPolicy → Option GoError

/-- Mirror of `PolicyManager` and its `PolicyMap` cache. -/
structure PolicyManager where
  policyMap : List (String × NPMNetworkPolicy)

/-- Mirror of `NewPolicyManager()`. -/
def NewPolicyManager : PolicyManager :=
  { policyMap := [] }

/-- Mirror of `PolicyManager.PolicyExists`. -/
def PolicyExists (pMgr : PolicyManager) (name : String) : Bool :=
  (lookupA name pMgr.policyMap).isSome

/-- Mirror of `PolicyManager.GetPolicy` (the `bool` of the Go pair is the
option's `isSome`). -/
def GetPolicy (pMgr : PolicyManager) (name : String) : Option NPMNetworkPolicy :=
  lookupA name pMgr.policyMap

/-- Mirror of `PolicyManager.AddPolicy`: program through the backend first;
on failure return the error as is, otherwise cache the policy. -/
def AddPolicy (bk : PolicyBackend) (pMgr : PolicyManager) (policy : NPMNetworkPolicy) :
    Option GoError × PolicyManager :=
  match bk.addPolicy policy with
  | some e => (some e, pMgr)
  | none => (none, { pMgr with policyMap := insertA policy.Name policy pMgr.policyMap })

/-- Mirror of `PolicyManager.RemovePolicy`: program removal through the
backend first; on failure return the error as is, otherwise evict. -/
def RemovePolicy (bk : PolicyBackend) (pMgr : PolicyManager) (name : String) :
    Option GoError × PolicyManager :=
  match bk.removePolicy name with
  | some e => (some e, pMgr)
  | none => (none, { pMgr with policyMap := eraseA name pMgr.policyMap })

/-- Mirror of `PolicyManager.UpdatePolicy`: programs the update through the
backend and touches no cache state. -/
def UpdatePolicy (bk : PolicyBackend) (pMgr : PolicyManager) (policy : NPMNetworkPolicy) :
    Option GoError × PolicyManager :=
  match bk.updatePolicy policy with
  | some e => (some e, pMgr)
  | none => (none, pMgr)

end policies

namespace dataplane

/-- Mirror of `NPMEndpoint` (linux fields). -/
structure NPMEndpoint where
  Name : String
  ID : String
  NetPolReference : List String
deriving DecidableEq

/-- Mirror of `DataPlane`: policy manager, v2 ipset manager, network and node
identity, and the endpoint cache keyed by pod key. -/
structure DataPlane where
  policyMgr : policies.PolicyManager
  ipsetMgr : ipsetsv2.IPSetManager
  networkID : String
  nodeName : String
  endpointCache : List (String × NPMEndpoint)

/-- Mirror of `NewDataPlane(nodeName)`. -/
def NewDataPlane (nodeName : String) : DataPlane :=
  { policyMgr := policies.NewPolicyManager
    ipsetMgr := ipsetsv2.NewIPSetManager
    networkID := ""
    nodeName := nodeName
    endpointCache := [] }

/-- Mirror of the linux `getEndpointsToApplyPolicy`: returns `(nil, nil)`. -/
def getEndpointsToApplyPolicy (dp : DataPlane) (policy : policies.NPMNetworkPolicy) :
    List (String × String) × Option GoError :=
  ([], none)

/-- First loop of `addIPSetReferences`: create each set (idempotently) and
register the reference, failing fast. -/
def addRefsLoop (netpolName : String) (refType : ipsetsv2.ReferenceType)
    (mgr : ipsetsv2.IPSetManager) :
    List ipsetsv2.IPSet → Option GoError × ipsetsv2.IPSetManager
  | [] => (none, mgr)
  | set :: rest =>
    let mgr1 := ipsetsv2.CreateIPSet mgr set.Name set.Typ
    match ipsetsv2.AddReference mgr1 set.Name netpolName refType with
    | (some e, mgr2) => (some e, mgr2)
    | (none, mgr2) => addRefsLoop netpolName refType mgr2 rest

/-- Second loop of `addIPSetReferences`: for each list set that carries
resolved members, push the memberships via `AddToList`, failing fast. -/
def addMembersLoop (mgr : ipsetsv2.IPSetManager) :
    List ipsetsv2.IPSet → Option GoError × ipsetsv2.IPSetManager
  | [] => (none, mgr)
  | set :: rest =>
    if set.Kind = .ListSet ∧ set.MemberIPSets ≠ [] then
      let memberList := set.MemberIPSets.map ipsetsv2.MemberRef.Name
      match ipsetsv2.AddToList mgr set.Name memberList with
      | (some e, mgr1) => (some e, mgr1)
      | (none, mgr1) => addMembersLoop mgr1 rest
    else addMembersLoop mgr rest

/-- Mirror of `DataPlane.addIPSetReferences`. -/
def addIPSetReferences (dp : DataPlane) (sets : List ipsetsv2.IPSet)
    (netpolName : String) (refType : ipsetsv2.ReferenceType) :
    Option GoError × DataPlane :=
  match addRefsLoop netpolName refType dp.ipsetMgr sets with
  | (some e, mgr1) => (some e, { dp with ipsetMgr := mgr1 })
  | (none, mgr1) =>
    match addMembersLoop mgr1 sets with
    | (some e, mgr2) => (some e, { dp with ipsetMgr := mgr2 })
    | (none, mgr2) => (none, { dp with ipsetMgr := mgr2 })

/-- First loop of `deleteIPSetReferences`: release each reference, failing
fast. -/
def delRefsLoop (netpolName : String) (refType : ipsetsv2.ReferenceType)
    (mgr : ipsetsv2.IPSetManager) :
    List ipsetsv2.IPSet → Option GoError × ipsetsv2.IPSetManager
  | [] => (none, mgr)
  | set :: rest =>
    match ipsetsv2.DeleteReference mgr set.Name netpolName refType with
    | (some e, mgr1) => (some e, mgr1)
    | (none, mgr1) => delRefsLoop netpolName refType mgr1 rest

/-- Second loop of `deleteIPSetReferences`: pull pushed list memberships,
then try to delete each set. -/
def delMembersLoop (mgr : ipsetsv2.IPSetManager) :
    List ipsetsv2.IPSet → Option GoError × ipsetsv2.IPSetManager
  | [] => (none, mgr)
  | set :: rest =>
    if set.Kind = .ListSet ∧ set.MemberIPSets ≠ [] then
      let memberList := set.MemberIPSets.map ipsetsv2.MemberRef.Name
      match ipsetsv2.RemoveFromList mgr set.Name memberList with
      | (some e, mgr1) => (some e, mgr1)
      | (none, mgr1) => delMembersLoop (ipsetsv2.DeleteIPSet mgr1 set.Name) rest
    else delMembersLoop (ipsetsv2.DeleteIPSet mgr set.Name) rest

/-- Mirror of `DataPlane.deleteIPSetReferences`. -/
def deleteIPSetReferences (dp : DataPlane) (sets : List ipsetsv2.IPSet)
    (netpolName : String) (refType : ipsetsv2.ReferenceType) :
    Option GoError × DataPlane :=
  match delRefsLoop netpolName refType dp.ipsetMgr sets with
  | (some e, mgr1) => (some e, { dp with ipsetMgr := mgr1 })
  | (none, mgr1) =>
    match delMembersLoop mgr1 sets with
    | (some e, mgr2) => (some e, { dp with ipsetMgr := mgr2 })
    | (none, mgr2) => (none, { dp with ipsetMgr := mgr2 })

/-- Mirror of `DataPlane.UpdatePolicy`: delegates to the policy manager and
wraps a failure. -/
def UpdatePolicy (bk : policies.PolicyBackend) (dp : DataPlane)
    (policy : policies.NPMNetworkPolicy) : Option GoError × DataPlane :=
  match policies.UpdatePolicy bk dp.policyMgr policy with
  | (some e, pm) =>
    (some (.wrapped "[DataPlane] error while updating policy" e), { dp with policyMgr := pm })
  | (none, pm) => (none, { dp with policyMgr := pm })

/-- Mirror of `DataPlane.AddPolicy`: an existing name degrades to
`UpdatePolicy`; otherwise selector references, then rule references, then
endpoint resolution, then the policy-manager commit, each failure wrapped
and aborting the rest. -/
def AddPolicy (bk : policies.PolicyBackend) (dp : DataPlane)
    (policy : policies.NPMNetworkPolicy) : Option GoError × DataPlane :=
  if policies.PolicyExists dp.policyMgr policy.Name then UpdatePolicy bk dp policy
  else
    match addIPSetReferences dp policy.PodSelectorIPSets policy.Name .SelectorType with
    | (some e, dp1) =>
      (some (.wrapped "[DataPlane] error while adding Selector IPSet references" e), dp1)
    | (none, dp1) =>
      match addIPSetReferences dp1 policy.RuleIPSets policy.Name .NetPolType with
      | (some e, dp2) =>
        (some (.wrapped "[DataPlane] error while adding Rule IPSet references" e), dp2)
      | (none, dp2) =>
        match getEndpointsToApplyPolicy dp2 policy with
        | (_, some e) => (some e, dp2)
        | (endpointList, none) =>
          let policy1 := { policy with PodEndpoints := endpointList }
          match policies.AddPolicy bk dp2.policyMgr policy1 with
          | (some e, pm) =>
            (some (.wrapped "[DataPlane] error while adding policy" e), { dp2 with policyMgr := pm })
          | (none, pm) => (none, { dp2 with policyMgr := pm })

/-- Mirror of `DataPlane.RemovePolicy`: an absent policy is a silent no-op;
otherwise remove from the policy manager, then release rule references, then
selector references. -/
def RemovePolicy (bk : policies.PolicyBackend) (dp : DataPlane) (policyName : String) :
    Option GoError × DataPlane :=
  match policies.GetPolicy dp.policyMgr policyName with
  | none => (none, dp)
  | some policy =>
    match policies.RemovePolicy bk dp.policyMgr policy.Name with
    | (some e, pm) =>
      (some (.wrapped "[DataPlane] error while removing policy" e), { dp with policyMgr := pm })
    | (none, pm) =>
      let dp1 := { dp with policyMgr := pm }
      match deleteIPSetReferences dp1 policy.RuleIPSets policy.Name .NetPolType with
      | (some e, dp2) => (some e, dp2)
      | (none, dp2) =>
        match deleteIPSetReferences dp2 policy.PodSelectorIPSets policy.Name .SelectorType with
        | (some e, dp3) => (some e, dp3)
        | (none, dp3) => (none, dp3)

/-- A backend whose three programming calls always succeed (test fixture). -/
def bkOK : policies.PolicyBackend :=
  { addPolicy := fun _ => none, removePolicy := fun _ => none, updatePolicy := fun _ => none }

/-- A policy with one namespace selector set and no rule sets (test fixture). -/
def polA : policies.NPMNetworkPolicy :=
  { Name := "polA"
    PodSelectorIPSets := [ipsetsv2.IPSet.mk "setA" .NameSpace [] [] []]
    RuleIPSets := []
    PodEndpoints := [] }

end dataplane

/-! ## Lemmas about the association-list model -/

@[simp] theorem lookupA_nil {V : Type} (key : String) :
    lookupA (V := V) key [] = none := rfl

@[simp] theorem lookupA_cons {V : Type} (key k : String) (v : V) (rest : List (String × V)) :
    lookupA key ((k, v) :: rest) = if k = key then some v else lookupA key rest := rfl

@[simp] theorem lookupA_insertA_self {V : Type} (key : String) (val : V)
    (l : List (String × V)) : lookupA key (insertA key val l) = some val := by
  induction l with
  | nil => simp [insertA]
  | cons p rest ih =>
    obtain ⟨k, v⟩ := p
    by_cases h : k = key <;> simp [insertA, h, ih]

theorem lookupA_insertA_ne {V : Type} {key key' : String} (val : V)
    (l : List (String × V)) (h : key ≠ key') :
    lookupA key' (insertA key val l) = lookupA key' l := by
  induction l with
  | nil => simp [insertA, h]
  | cons p rest ih =>
    obtain ⟨k, v⟩ := p
    by_cases hk : k = key
    · subst hk; simp [insertA, h]
    · simp [insertA, hk, ih]

/-- A key is found exactly when it occurs among the keys. -/
theorem lookupA_isSome_iff {V : Type} (key : String) (l : List (String × V)) :
    (lookupA key l).isSome = true ↔ key ∈ l.map Prod.fst := by
  induction l with
  | nil => simp
  | cons p rest ih =>
    obtain ⟨k, v⟩ := p
    by_cases h : k = key
    · subst h; simp
    · rw [lookupA_cons, if_neg h, ih]
      simp [List.mem_cons, Ne.symm h]

/-! ## Properties of the v1 ipset manager -/

namespace ipsets

/-- After `AddToSet` on a cached hash set, the call returns (the hash-set
mutex is taken only once on this path), reports no error and the cached set
(type unchanged) records `podKey` as the owner of `ip`. -/
theorem AddToSet_hash_spec (mgr : IPSetManager) (s ip k : String) (set0 : IPSet)
    (hs : lookupA s mgr.setMap = some set0)
    (hk : getSetKind set0 = .HashSet)
    (hip : isIPv4 ip = true) :
    ∃ m1 set1, AddToSet mgr s ip k = .ok (none, m1) ∧
      lookupA s m1.setMap = some set1 ∧
      set1.Typ = set0.Typ ∧ lookupA ip set1.IpPodKey = some k := by
  unfold AddToSet
  rw [hs]
  simp only [hip, not_true_eq_false, if_false]
  unfold addToSetBody
  simp only [hk, ne_eq, not_true_eq_false, if_false, reduceIte]
  cases hlook : lookupA ip set0.IpPodKey with
  | none =>
    refine ⟨_, { set0 with IpPodKey := insertA ip k set0.IpPodKey }, rfl, ?_, rfl, ?_⟩ <;> simp
  | some c =>
    by_cases hc : c = k
    · subst hc
      refine ⟨mgr, set0, by simp, hs, rfl, hlook⟩
    · refine ⟨{ mgr with
          setMap := insertA s { set0 with IpPodKey := insertA ip k set0.IpPodKey } mgr.setMap },
        { set0 with IpPodKey := insertA ip k set0.IpPodKey }, by simp [hc], ?_, rfl, ?_⟩ <;>
        simp [hc]

/-- A `DeleteFromSet` whose pod key differs from the cached owner is the
recognized stale no-op: no error, no state change. -/
theorem DeleteFromSet_stale (mgr : IPSetManager) (s ip k owner : String) (set0 : IPSet)
    (hs : lookupA s mgr.setMap = some set0)
    (hk : getSetKind set0 = .HashSet)
    (hown : lookupA ip set0.IpPodKey = some owner)
    (hne : owner ≠ k) :
    DeleteFromSet mgr s ip k = (none, mgr) := by
  unfold DeleteFromSet
  rw [hs]
  simp [hk, hown, hne]

/-- Claim C1: on a cached hash set, `AddToSet(s, ip, k1)` then
`AddToSet(s, ip, k2)` returns without error both times and leaves `ip`
owned by `k2` (last-writer-wins overwrite), and a subsequent
`DeleteFromSet(s, ip, k1)` returns no error, changes nothing, and so leaves
the owner equal to `k2` (stale delete is a recognized no-op). -/
theorem addToSet_overwrite_stale_delete (mgr : IPSetManager) (s ip k1 k2 : String)
    (set0 : IPSet)
    (hs : lookupA s mgr.setMap = some set0)
    (hk : getSetKind set0 = .HashSet)
    (hip : isIPv4 ip = true)
    (hne : k1 ≠ k2) :
    ∃ m1 m2 set2,
      AddToSet mgr s ip k1 = .ok (none, m1) ∧
      AddToSet m1 s ip k2 = .ok (none, m2) ∧
      lookupA s m2.setMap = some set2 ∧
      lookupA ip set2.IpPodKey = some k2 ∧
      DeleteFromSet m2 s ip k1 = (none, m2) := by
  obtain ⟨m1, set1, he1, hs1, hT1, hown1⟩ := AddToSet_hash_spec mgr s ip k1 set0 hs hk hip
  have hk1 : getSetKind set1 = .HashSet := by
    unfold getSetKind at hk ⊢
    rw [hT1]
    exact hk
  obtain ⟨m2, set2, he2, hs2, hT2, hown2⟩ := AddToSet_hash_spec m1 s ip k2 set1 hs1 hk1 hip
  have hk2 : getSetKind set2 = .HashSet := by
    unfold getSetKind at hk1 ⊢
    rw [hT2]
    exact hk1
  exact ⟨m1, m2, set2, he1, he2, hs2, hown2,
    DeleteFromSet_stale m2 s ip k1 k2 set2 hs2 hk2 hown2 (Ne.symm hne)⟩

/-- Claim C1 witness at a concrete manager holding the hash set `"s"`. -/
theorem addToSet_overwrite_stale_delete_witness :
    lookupA "s" (IPSetManager.mk [] [("s", IPSet.mk "s" .NameSpace [] [])] "linux").setMap =
      some (IPSet.mk "s" .NameSpace [] []) ∧
    getSetKind (IPSet.mk "s" .NameSpace [] []) = .HashSet ∧
    isIPv4 "10.0.0.1" = true ∧
    "podA" ≠ "podB" ∧
    (∃ m1 m2 set2,
      AddToSet (IPSetManager.mk [] [("s", IPSet.mk "s" .NameSpace [] [])] "linux")
          "s" "10.0.0.1" "podA" = .ok (none, m1) ∧
      AddToSet m1 "s" "10.0.0.1" "podB" = .ok (none, m2) ∧
      lookupA "s" m2.setMap = some set2 ∧
      lookupA "10.0.0.1" set2.IpPodKey = some "podB" ∧
      DeleteFromSet m2 "s" "10.0.0.1" "podA" = (none, m2)) :=
  ⟨by decide, by decide, by decide, by decide,
    addToSet_overwrite_stale_delete _ "s" "10.0.0.1" "podA" "podB"
      (IPSet.mk "s" .NameSpace [] [])
      (by decide) (by decide) (by decide) (by decide)⟩

/-- Claim C5: for a valid set, a second `CreateIPSet` with the same argument
returns no error and leaves the cache state exactly as after the first call
(the existing set is neither replaced nor diffed). -/
theorem createIPSet_idempotent (mgr : IPSetManager) (set : IPSet)
    (h : (CreateIPSet mgr set).1 = none) :
    CreateIPSet (CreateIPSet mgr set).2 set = (none, (CreateIPSet mgr set).2) := by
  unfold CreateIPSet at h ⊢
  cases hk : getSetKind set with
  | ListSet =>
    simp only [hk]
    by_cases hex : (lookupA set.Name mgr.listMap).isSome = true
    · simp [hex]
    · simp [hex]
  | HashSet =>
    simp only [hk]
    by_cases hex : (lookupA set.Name mgr.setMap).isSome = true
    · simp [hex]
    · simp [hex]
  | UnknownKind =>
    rw [hk] at h
    simp at h

/-- Claim C5 witness: creating the namespace set `"test-set"` twice on an
empty manager. -/
theorem createIPSet_idempotent_witness :
    (CreateIPSet NewIPSetManager (IPSet.mk "test-set" .NameSpace [] [])).1 = none ∧
    CreateIPSet (CreateIPSet NewIPSetManager (IPSet.mk "test-set" .NameSpace [] [])).2
        (IPSet.mk "test-set" .NameSpace [] []) =
      (none, (CreateIPSet NewIPSetManager (IPSet.mk "test-set" .NameSpace [] [])).2) :=
  ⟨by decide, createIPSet_idempotent NewIPSetManager _ (by decide)⟩

/-- Claim C6: `AddToSet` on a name absent from both caches never returns at
all — while `AddToSet` still holds the hash-set mutex (its unlock is
deferred), the auto-create branch's nested `CreateIPSet` re-locks that same
non-reentrant mutex for the hash kind of `NewIPSet(n, SetType_Unknown)`, so
the call self-deadlocks instead of returning nil with `ip → podKey`
recorded. -/
theorem addToSet_autocreate_deadlock (mgr : IPSetManager) (n ip k : String)
    (hset : lookupA n mgr.setMap = none)
    (hlist : lookupA n mgr.listMap = none)
    (hip : isIPv4 ip = true) :
    AddToSet mgr n ip k = .deadlock := by
  unfold AddToSet
  rw [hset]
  simp only [hip, not_true_eq_false, if_false]
  rfl

/-- Claim C6 witness on the empty manager: the exact failing input. -/
theorem addToSet_autocreate_deadlock_witness :
    lookupA "fresh" NewIPSetManager.setMap = none ∧
    lookupA "fresh" NewIPSetManager.listMap = none ∧
    isIPv4 "10.0.0.7" = true ∧
    AddToSet NewIPSetManager "fresh" "10.0.0.7" "podX" = .deadlock :=
  ⟨by decide, by decide, by decide,
    addToSet_autocreate_deadlock NewIPSetManager "fresh" "10.0.0.7" "podX"
      (by decide) (by decide) (by decide)⟩

/-- Claim C7: `DeleteFromSet` on a name absent from the hash-set cache
returns the does-not-exist error and leaves the manager (both caches)
unchanged. -/
theorem deleteFromSet_missing (mgr : IPSetManager) (n ip k : String)
    (h : lookupA n mgr.setMap = none) :
    DeleteFromSet mgr n ip k =
      (some (Errorf .DeleteIPSet false ("ipset " ++ n ++ " does not exist")), mgr) := by
  unfold DeleteFromSet
  rw [h]

/-- Claim C7 witness on the empty manager. -/
theorem deleteFromSet_missing_witness :
    lookupA "test-set" NewIPSetManager.setMap = none ∧
    DeleteFromSet NewIPSetManager "test-set" "10.0.0.0" "test-pod-key" =
      (some (Errorf .DeleteIPSet false ("ipset " ++ "test-set" ++ " does not exist")),
        NewIPSetManager) :=
  ⟨by decide, deleteFromSet_missing NewIPSetManager "test-set" "10.0.0.0" "test-pod-key" rfl⟩

/-- Claim C8: adding a list to itself always fails with the self-reference
error and mutates nothing, for every manager state and every name. -/
theorem addToList_selfReference (mgr : IPSetManager) (n : String) :
    AddToList mgr n n =
      (some (Errorf .AppendIPSet false ("list " ++ n ++ " cannot be added to itself")), mgr) := by
  unfold AddToList
  simp

/-- Claim C9: `DeleteFromList` never mutates the manager on any path, and on
a valid hash-set member and list it returns no error whether or not the
member is present. -/
theorem deleteFromList_noMutation (mgr : IPSetManager) (L S : String) :
    (DeleteFromList mgr L S).2 = mgr ∧
    (∀ set list, lookupA S mgr.setMap = some set → getSetKind set = .HashSet →
      lookupA L mgr.listMap = some list → getSetKind list = .ListSet →
      (DeleteFromList mgr L S).1 = none) := by
  constructor
  · unfold DeleteFromList
    cases lookupA S mgr.setMap with
    | none => rfl
    | some set =>
      dsimp only
      split
      · rfl
      · split
        · rfl
        · cases lookupA L mgr.listMap with
          | none => rfl
          | some list =>
            dsimp only
            split
            · rfl
            · split <;> rfl
  · intro set list hset hk hlist hkl
    unfold DeleteFromList
    rw [hset, hlist]
    simp only [hk, hkl, ne_eq, not_true_eq_false, if_false, false_and, reduceIte]
    split <;> rfl

/-- Claim C9 witness: a manager where `"s"` is currently a member of the
list `"l"`. -/
theorem deleteFromList_noMutation_witness :
    (DeleteFromList
        (IPSetManager.mk [("l", IPSet.mk "l" .KeyLabelOfNameSpace [] ["s"])]
          [("s", IPSet.mk "s" .NameSpace [] [])] "linux") "l" "s").2 =
      IPSetManager.mk [("l", IPSet.mk "l" .KeyLabelOfNameSpace [] ["s"])]
          [("s", IPSet.mk "s" .NameSpace [] [])] "linux" ∧
    (DeleteFromList
        (IPSetManager.mk [("l", IPSet.mk "l" .KeyLabelOfNameSpace [] ["s"])]
          [("s", IPSet.mk "s" .NameSpace [] [])] "linux") "l" "s").1 = none := by
  have h := deleteFromList_noMutation
    (IPSetManager.mk [("l", IPSet.mk "l" .KeyLabelOfNameSpace [] ["s"])]
      [("s", IPSet.mk "s" .NameSpace [] [])] "linux") "l" "s"
  exact ⟨h.1, h.2 (IPSet.mk "s" .NameSpace [] []) (IPSet.mk "l" .KeyLabelOfNameSpace [] ["s"])
    (by decide) (by decide) (by decide) (by decide)⟩

end ipsets

/-! ## Properties of the policy manager -/

namespace policies

/-- Claim C2: a backend failure inside `AddPolicy` or `RemovePolicy` is
returned unmodified and the policy cache is untouched; the cache is mutated
only on backend success. -/
theorem policyManager_backend_error (bk : PolicyBackend) (pMgr : PolicyManager)
    (p : NPMNetworkPolicy) (name : String) (e e' : GoError)
    (ha : bk.addPolicy p = some e) (hr : bk.removePolicy name = some e') :
    AddPolicy bk pMgr p = (some e, pMgr) ∧ RemovePolicy bk pMgr name = (some e', pMgr) := by
  unfold AddPolicy RemovePolicy
  rw [ha, hr]
  exact ⟨rfl, rfl⟩

/-- Claim C2 witness: a backend that fails both calls on a one-policy cache. -/
theorem policyManager_backend_error_witness :
    (PolicyBackend.mk (fun _ => some (GoError.backendError "add failed"))
        (fun _ => some (GoError.backendError "remove failed"))
        (fun _ => none)).addPolicy (NPMNetworkPolicy.mk "polA" [] [] []) =
      some (GoError.backendError "add failed") ∧
    (PolicyBackend.mk (fun _ => some (GoError.backendError "add failed"))
        (fun _ => some (GoError.backendError "remove failed"))
        (fun _ => none)).removePolicy "polB" =
      some (GoError.backendError "remove failed") ∧
    (AddPolicy (PolicyBackend.mk (fun _ => some (GoError.backendError "add failed"))
        (fun _ => some (GoError.backendError "remove failed"))
        (fun _ => none))
        (PolicyManager.mk [("polB", NPMNetworkPolicy.mk "polB" [] [] [])])
        (NPMNetworkPolicy.mk "polA" [] [] []) =
      (some (GoError.backendError "add failed"),
        PolicyManager.mk [("polB", NPMNetworkPolicy.mk "polB" [] [] [])]) ∧
     RemovePolicy (PolicyBackend.mk (fun _ => some (GoError.backendError "add failed"))
        (fun _ => some (GoError.backendError "remove failed"))
        (fun _ => none))
        (PolicyManager.mk [("polB", NPMNetworkPolicy.mk "polB" [] [] [])]) "polB" =
      (some (GoError.backendError "remove failed"),
        PolicyManager.mk [("polB", NPMNetworkPolicy.mk "polB" [] [] [])])) :=
  ⟨rfl, rfl,
    policyManager_backend_error _
      (PolicyManager.mk [("polB", NPMNetworkPolicy.mk "polB" [] [] [])])
      (NPMNetworkPolicy.mk "polA" [] [] []) "polB" _ _ rfl rfl⟩

/-- `UpdatePolicy` of the policy manager never changes the cache, success or
failure. -/
theorem updatePolicy_cache_unchanged (bk : PolicyBackend) (pMgr : PolicyManager)
    (p : NPMNetworkPolicy) : (UpdatePolicy bk pMgr p).2 = pMgr := by
  unfold UpdatePolicy
  cases bk.updatePolicy p <;> rfl

end policies

/-! ## Properties of the DataPlane orchestrator -/

namespace dataplane

/-- Claim C10: `DataPlane.RemovePolicy` of a name absent from the policy
cache returns no error and leaves the whole orchestrator state — policy
cache, both set caches and all references — unchanged. -/
theorem removePolicy_absent_noop (bk : policies.PolicyBackend) (dp : DataPlane)
    (name : String) (h : lookupA name dp.policyMgr.policyMap = none) :
    RemovePolicy bk dp name = (none, dp) := by
  unfold RemovePolicy policies.GetPolicy
  rw [h]

/-- Claim C10 witness: removing from a freshly constructed dataplane. -/
theorem removePolicy_absent_noop_witness :
    lookupA "ghost" (NewDataPlane "testnode").policyMgr.policyMap = none ∧
    RemovePolicy (policies.PolicyBackend.mk (fun _ => none) (fun _ => none) (fun _ => none))
        (NewDataPlane "testnode") "ghost" =
      (none, NewDataPlane "testnode") :=
  ⟨rfl, removePolicy_absent_noop _ (NewDataPlane "testnode") "ghost" rfl⟩

/-- `DataPlane.UpdatePolicy` never changes the orchestrator state. -/
theorem updatePolicy_state_unchanged (bk : policies.PolicyBackend) (dp : DataPlane)
    (p : policies.NPMNetworkPolicy) : (UpdatePolicy bk dp p).2 = dp := by
  unfold UpdatePolicy
  cases hp : policies.UpdatePolicy bk dp.policyMgr p with
  | mk e pm =>
    have hpm : pm = dp.policyMgr := by
      have := policies.updatePolicy_cache_unchanged bk dp.policyMgr p
      rw [hp] at this
      exact this
    cases e <;> simp [hpm]

/-- A successful `DataPlane.AddPolicy` leaves the policy cached under its
name. -/
theorem addPolicy_success_cached (bk : policies.PolicyBackend) (dp : DataPlane)
    (p : policies.NPMNetworkPolicy) (h : (AddPolicy bk dp p).1 = none) :
    policies.PolicyExists (AddPolicy bk dp p).2.policyMgr p.Name = true := by
  unfold AddPolicy at *
  by_cases hex : policies.PolicyExists dp.policyMgr p.Name = true
  · rw [if_pos hex] at h ⊢
    rw [updatePolicy_state_unchanged]
    exact hex
  · rw [if_neg hex] at h ⊢
    cases h1 : addIPSetReferences dp p.PodSelectorIPSets p.Name .SelectorType with
    | mk e1 dp1 =>
      rw [h1] at h
      cases e1 with
      | some e => simp at h
      | none =>
        dsimp only at h ⊢
        cases h2 : addIPSetReferences dp1 p.RuleIPSets p.Name .NetPolType with
        | mk e2 dp2 =>
          rw [h2] at h
          cases e2 with
          | some e => simp at h
          | none =>
            dsimp only [getEndpointsToApplyPolicy, policies.AddPolicy] at h ⊢
            cases hbk : bk.addPolicy { p with PodEndpoints := [] } with
            | some e =>
              rw [hbk] at h
              simp at h
            | none =>
              rw [hbk] at h
              simp [policies.PolicyExists]

/-- When the policy name is already cached, `AddPolicy` is exactly
`UpdatePolicy`. -/
theorem addPolicy_exists_eq_update (bk : policies.PolicyBackend) (dp : DataPlane)
    (p : policies.NPMNetworkPolicy)
    (hex : policies.PolicyExists dp.policyMgr p.Name = true) :
    AddPolicy bk dp p = UpdatePolicy bk dp p := by
  unfold AddPolicy
  rw [if_pos hex]

/-- Claim C3: after a successful `AddPolicy`, a second `AddPolicy` with the
same policy routes through the update path (it equals `UpdatePolicy`) and
registers no new Selector or NetworkPolicyRule references: the whole ipset
manager state — including every set's reference map — is unchanged by the
second call. -/
theorem addPolicy_existing_routes_update (bk : policies.PolicyBackend) (dp0 : DataPlane)
    (p : policies.NPMNetworkPolicy) (hfirst : (AddPolicy bk dp0 p).1 = none) :
    AddPolicy bk (AddPolicy bk dp0 p).2 p = UpdatePolicy bk (AddPolicy bk dp0 p).2 p ∧
    (AddPolicy bk (AddPolicy bk dp0 p).2 p).2.ipsetMgr = (AddPolicy bk dp0 p).2.ipsetMgr := by
  have hex := addPolicy_success_cached bk dp0 p hfirst
  have hroute := addPolicy_exists_eq_update bk (AddPolicy bk dp0 p).2 p hex
  refine ⟨hroute, ?_⟩
  rw [hroute, updatePolicy_state_unchanged]

/-- Claim C3 witness: adding the same one-selector-set policy twice to a
fresh dataplane over an always-succeeding backend. -/
theorem addPolicy_existing_routes_update_witness :
    (AddPolicy bkOK (NewDataPlane "testnode") polA).1 = none ∧
    (AddPolicy bkOK (AddPolicy bkOK (NewDataPlane "testnode") polA).2 polA =
      UpdatePolicy bkOK (AddPolicy bkOK (NewDataPlane "testnode") polA).2 polA ∧
     (AddPolicy bkOK (AddPolicy bkOK (NewDataPlane "testnode") polA).2 polA).2.ipsetMgr =
      (AddPolicy bkOK (NewDataPlane "testnode") polA).2.ipsetMgr) :=
  ⟨by decide,
    addPolicy_existing_routes_update bkOK (NewDataPlane "testnode") polA (by decide)⟩

end dataplane

/-! ## Properties of the selector intersection -/

namespace ipsetsv2

/-- Membership in a left fold of binary intersections. -/
theorem mem_foldl_inter (x : String) (l : List (Finset String)) (acc : Finset String) :
    x ∈ l.foldl (fun a t => a ∩ t) acc ↔ x ∈ acc ∧ ∀ s ∈ l, x ∈ s := by
  induction l generalizing acc with
  | nil => simp
  | cons s rest ih =>
    simp only [List.foldl_cons, ih, Finset.mem_inter, List.mem_cons]
    constructor
    · rintro ⟨⟨ha, hs⟩, hrest⟩
      refine ⟨ha, fun t ht => ?_⟩
      rcases ht with rfl | ht
      · exact hs
      · exact hrest t ht
    · rintro ⟨ha, hall⟩
      exact ⟨⟨ha, hall s (Or.inl rfl)⟩, fun t ht => hall t (Or.inr ht)⟩

/-- Membership in the intersection of a list of sets. -/
theorem mem_intersectAll (x : String) (l : List (Finset String)) :
    x ∈ intersectAll l ↔ l ≠ [] ∧ ∀ s ∈ l, x ∈ s := by
  cases l with
  | nil => simp [intersectAll]
  | cons s rest =>
    simp [intersectAll, mem_foldl_inter]

/-- A successful resolution certifies every name as a cached hash set. -/
theorem resolveHashSets_ok_forall (mgr : IPSetManager) :
    ∀ (names : List String) (sets : List IPSet),
    resolveHashSets mgr names = .ok sets →
    ∀ n ∈ names, ∃ s, lookupA n mgr.setMap = some s ∧ s.Kind = .HashSet := by
  intro names
  induction names with
  | nil =>
    intro sets h n hn
    simp at hn
  | cons n rest ih =>
    intro sets h m hm
    unfold resolveHashSets at h
    cases hl : lookupA n mgr.setMap with
    | none =>
      rw [hl] at h
      simp at h
    | some set =>
      rw [hl] at h
      dsimp only at h
      by_cases hk : set.Kind = .HashSet
      · rw [if_neg (by simp [hk])] at h
        cases hr : resolveHashSets mgr rest with
        | error e =>
          rw [hr] at h
          simp at h
        | ok sets2 =>
          rw [hr] at h
          rcases List.mem_cons.mp hm with rfl | hm2
          · exact ⟨set, hl, hk⟩
          · exact ih sets2 hr m hm2
      · rw [if_pos hk] at h
        simp at h

/-- Every valid name list resolves successfully. -/
theorem resolveHashSets_ok_of_forall (mgr : IPSetManager) :
    ∀ names : List String,
    (∀ n ∈ names, ∃ s, lookupA n mgr.setMap = some s ∧ s.Kind = .HashSet) →
    ∃ sets, resolveHashSets mgr names = .ok sets := by
  intro names
  induction names with
  | nil => exact fun _ => ⟨[], rfl⟩
  | cons n rest ih =>
    intro hvalid
    obtain ⟨set, hl, hk⟩ := hvalid n (List.mem_cons_self n rest)
    obtain ⟨sets2, hr⟩ := ih fun m hm => hvalid m (List.mem_cons_of_mem n hm)
    refine ⟨set :: sets2, ?_⟩
    unfold resolveHashSets
    rw [hl]
    dsimp only
    rw [if_neg (by simp [hk]), hr]

/-- A successful resolution is empty exactly for the empty name list. -/
theorem resolveHashSets_nil_iff (mgr : IPSetManager) :
    ∀ (names : List String) (sets : List IPSet),
    resolveHashSets mgr names = .ok sets → (sets = [] ↔ names = []) := by
  intro names
  cases names with
  | nil =>
    intro sets h
    unfold resolveHashSets at h
    injection h with h
    simp [← h]
  | cons n rest =>
    intro sets h
    unfold resolveHashSets at h
    cases hl : lookupA n mgr.setMap with
    | none =>
      rw [hl] at h
      simp at h
    | some set =>
      rw [hl] at h
      dsimp only at h
      by_cases hk : set.Kind = .HashSet
      · rw [if_neg (by simp [hk])] at h
        cases hr : resolveHashSets mgr rest with
        | error e =>
          rw [hr] at h
          simp at h
        | ok sets2 =>
          rw [hr] at h
          injection h with h
          simp [← h]
      · rw [if_pos hk] at h
        simp at h

/-- Pointwise: an IP lies in every resolved set exactly when it lies in the
cached set of every name. -/
theorem resolveHashSets_mem (mgr : IPSetManager) :
    ∀ (names : List String) (sets : List IPSet) (x : String),
    resolveHashSets mgr names = .ok sets →
    ((∀ s ∈ sets, x ∈ memberIPs s) ↔
      ∀ n ∈ names, ∃ s, lookupA n mgr.setMap = some s ∧ x ∈ memberIPs s) := by
  intro names
  induction names with
  | nil =>
    intro sets x h
    unfold resolveHashSets at h
    injection h with h
    simp [← h]
  | cons n rest ih =>
    intro sets x h
    unfold resolveHashSets at h
    cases hl : lookupA n mgr.setMap with
    | none =>
      rw [hl] at h
      simp at h
    | some set =>
      rw [hl] at h
      dsimp only at h
      by_cases hk : set.Kind = .HashSet
      · rw [if_neg (by simp [hk])] at h
        cases hr : resolveHashSets mgr rest with
        | error e =>
          rw [hr] at h
          simp at h
        | ok sets2 =>
          rw [hr] at h
          injection h with h
          subst h
          have hrest := ih sets2 x hr
          constructor
          · rintro hall m hm
            rcases List.mem_cons.mp hm with rfl | hm2
            · exact ⟨set, hl, hall set (List.mem_cons_self set sets2)⟩
            · exact (hrest.mp fun s hs => hall s (List.mem_cons_of_mem set hs)) m hm2
          · rintro hall s hs
            rcases List.mem_cons.mp hs with rfl | hs2
            · obtain ⟨s2, hl2, hx⟩ := hall n (List.mem_cons_self n rest)
              rw [hl] at hl2
              injection hl2 with hl2
              rw [hl2]
              exact hx
            · exact (hrest.mpr fun m hm => hall m (List.mem_cons_of_mem n hm)) s hs2
      · rw [if_pos hk] at h
        simp at h

/-- Characterization of a successful selector query: an IP is in the result
exactly when the name list is nonempty and the IP belongs to the cached set
of every name. -/
theorem getIPs_char (mgr : IPSetManager) (names : List String) (sets : List IPSet)
    (hres : resolveHashSets mgr names = .ok sets) (x : String) :
    x ∈ intersectAll (sets.map memberIPs) ↔
      names ≠ [] ∧ ∀ n ∈ names, ∃ s, lookupA n mgr.setMap = some s ∧ x ∈ memberIPs s := by
  have hnil := resolveHashSets_nil_iff mgr names sets hres
  have hmem := resolveHashSets_mem mgr names sets x hres
  rw [mem_intersectAll]
  constructor
  · rintro ⟨hne, hall⟩
    refine ⟨fun hn => hne ?_, hmem.mp fun s hs => hall (memberIPs s) (List.mem_map_of_mem memberIPs hs)⟩
    rw [hnil.mpr hn]
    rfl
  · rintro ⟨hne, hall⟩
    refine ⟨fun hmapnil => hne (hnil.mp ?_), ?_⟩
    · cases sets with
      | nil => rfl
      | cons a l => simp at hmapnil
    · intro f hf
      obtain ⟨s, hs, rfl⟩ := List.mem_map.mp hf
      exact hmem.mpr hall s hs

/-- Claim C4: a successful `GetIPsFromSelectorIPSets` returns exactly the
intersection of the IP memberships of the named sets; the result is
identical under any permutation of the input names; and on the cached
scenario of `TestGetIPsFromSelectorIPSets` the answer is exactly
`{10.0.0.1, 10.0.0.2}`. -/
theorem getIPs_intersection (mgr : IPSetManager) (names names2 : List String)
    (r : Finset String)
    (hok : GetIPsFromSelectorIPSets mgr names = .ok r)
    (hperm : names.Perm names2) :
    (∀ x, x ∈ r ↔
      names ≠ [] ∧ ∀ n ∈ names, ∃ s, lookupA n mgr.setMap = some s ∧ x ∈ memberIPs s) ∧
    GetIPsFromSelectorIPSets mgr names2 = .ok r ∧
    GetIPsFromSelectorIPSets scenarioMgr ["setNs1", "setpod1", "setpod2", "setpod3"] =
      .ok {"10.0.0.1", "10.0.0.2"} := by
  unfold GetIPsFromSelectorIPSets at hok
  cases hres : resolveHashSets mgr names with
  | error e =>
    rw [hres] at hok
    simp at hok
  | ok sets =>
    rw [hres] at hok
    dsimp only at hok
    injection hok with hok
    have hchar : ∀ x, x ∈ r ↔
        names ≠ [] ∧ ∀ n ∈ names, ∃ s, lookupA n mgr.setMap = some s ∧ x ∈ memberIPs s := by
      intro x
      rw [← hok]
      exact getIPs_char mgr names sets hres x
    refine ⟨hchar, ?_, by decide⟩
    have hvalid := resolveHashSets_ok_forall mgr names sets hres
    obtain ⟨sets2, hres2⟩ := resolveHashSets_ok_of_forall mgr names2
      fun n hn => hvalid n (hperm.mem_iff.mpr hn)
    have hr2 : intersectAll (sets2.map memberIPs) = r := by
      apply Finset.ext
      intro x
      rw [getIPs_char mgr names2 sets2 hres2 x, hchar x]
      constructor
      · rintro ⟨hne2, hall2⟩
        refine ⟨fun hn => hne2 ?_, fun n hn => hall2 n (hperm.mem_iff.mp hn)⟩
        subst hn
        exact hperm.symm.eq_nil
      · rintro ⟨hne, hall⟩
        refine ⟨fun hn2 => hne ?_, fun n hn => hall n (hperm.mem_iff.mpr hn)⟩
        subst hn2
        exact hperm.eq_nil
    unfold GetIPsFromSelectorIPSets
    rw [hres2]
    dsimp only
    rw [hr2]

/-- Claim C4 witness: the scenario manager queried in test order and in
reversed order returns the same two-IP intersection. -/
theorem getIPs_intersection_witness :
    GetIPsFromSelectorIPSets scenarioMgr ["setNs1", "setpod1", "setpod2", "setpod3"] =
      .ok {"10.0.0.1", "10.0.0.2"} ∧
    List.Perm ["setNs1", "setpod1", "setpod2", "setpod3"]
      ["setpod3", "setpod2", "setpod1", "setNs1"] ∧
    GetIPsFromSelectorIPSets scenarioMgr ["setpod3", "setpod2", "setpod1", "setNs1"] =
      .ok {"10.0.0.1", "10.0.0.2"} :=
  ⟨by decide, by decide,
    (getIPs_intersection scenarioMgr ["setNs1", "setpod1", "setpod2", "setpod3"]
      ["setpod3", "setpod2", "setpod1", "setNs1"] {"10.0.0.1", "10.0.0.2"}
      (by decide) (by decide)).2.1⟩

end ipsetsv2

end AzureACN
